import Mathlib

/-!
# Verification of the wellbeing planner core

Shallow embedding of the scoring/retrieval pipeline of the repository
(`app/reflection.py`, `app/retrieval.py`, `app/life_quality.py`,
`app/validators.py`, `app/providers.py`, `app/orchestration.py`).
Python floats are modelled as rationals, Python ints as integers,
Python `None` as `Option.none`, and an uncaught Python exception as
`Except.error`.
-/

namespace Wellbeing

/-! ## String helpers (Python `str.lower`, substring containment `in`) -/

/-- Python `text.lower()` (the repository only lowercases ASCII text);
implemented over the character list so that it reduces by `rfl`. -/
def lowerStr (s : String) : String :=
  String.mk (s.data.map Char.toLower)

/-- Boolean prefix test on character lists. -/
def charsHavePrefix : List Char → List Char → Bool
  | [], _ => true
  | _ :: _, [] => false
  | a :: as, b :: bs => a = b && charsHavePrefix as bs

/-- Python substring containment `needle in hay`, on character lists.
The empty needle is contained in everything, as in Python. -/
def charsContain (needle : List Char) : List Char → Bool
  | [] => needle.isEmpty
  | c :: rest => charsHavePrefix needle (c :: rest) || charsContain needle rest

/-- Python `needle in hay` for strings. -/
def strContains (hay needle : String) : Bool :=
  charsContain needle.toList hay.toList

/-- Word characters for the regex `\b` boundary: `[a-zA-Z0-9_]`. -/
def isWordChar (c : Char) : Bool :=
  c.isAlpha || c.isDigit || c = '_'

/-- One step of scanning for a word-bounded occurrence: `prev` is the
character immediately before the current suffix (`none` at the start of
the text).  All theme keywords in `reflection.py` begin and end with a
word character, so `\bkw\b` matches at a position iff the preceding and
following characters (when they exist) are non-word characters. -/
def wbMatchAux (kw : List Char) : Option Char → List Char → Bool
  | _, [] => false
  | prev, c :: rest =>
    ((match prev with
      | none => true
      | some p => !isWordChar p) &&
     charsHavePrefix kw (c :: rest) &&
     (match (c :: rest).drop kw.length with
      | [] => true
      | d :: _ => !isWordChar d)) ||
    wbMatchAux kw (some c) rest

/-- `re.search(rf"\b{kw}\b", text)` as used by `_themes` in `reflection.py`. -/
def wbMatch (kw : String) (text : List Char) : Bool :=
  wbMatchAux kw.toList none text

end Wellbeing

namespace Wellbeing

/-! ## JSON values and `json.loads` (`providers.py` depends on them) -/

/-- Parsed JSON values, as returned by Python `json.loads`.  Objects are
kept as association lists in textual order (the inputs appearing in the
development have no duplicate keys, where Python dicts would keep the
last occurrence). -/
inductive Json where
  | null : Json
  | bool : Bool → Json
  | num : ℚ → Json
  | str : String → Json
  | arr : List Json → Json
  | obj : List (String × Json) → Json

/-- JSON whitespace accepted by Python `json.loads`. -/
def isJsonWs (c : Char) : Bool :=
  c = ' ' || c = '\t' || c = '\n' || c = '\r'

/-- Drop leading JSON whitespace. -/
def skipWs : List Char → List Char
  | [] => []
  | c :: rest => if isJsonWs c then skipWs rest else c :: rest

/-- Parse a run of decimal digits, returning their value and count. -/
def parseDigits : List Char → ℕ → ℕ → (ℕ × ℕ × List Char)
  | [], acc, n => (acc, n, [])
  | c :: rest, acc, n =>
    if c.isDigit then parseDigits rest (acc * 10 + (c.toNat - 48)) (n + 1)
    else (acc, n, c :: rest)

/-- Parse the integer part of a JSON number: `0` or `[1-9][0-9]*`
(JSON forbids redundant leading zeros). -/
def parseIntPart : List Char → Option (ℕ × List Char)
  | [] => none
  | c :: rest =>
    if c = '0' then some (0, rest)
    else if c.isDigit then
      let (v, _, r) := parseDigits (c :: rest) 0 0
      some (v, r)
    else none

/-- Parse the optional fraction part `.[0-9]+`; returns the fraction as a
rational in `[0,1)`. -/
def parseFracPart : List Char → Option (ℚ × List Char)
  | '.' :: rest =>
    match rest with
    | c :: _ =>
      if c.isDigit then
        let (v, n, r) := parseDigits rest 0 0
        some ((v : ℚ) / ((10 : ℚ) ^ n), r)
      else none
    | [] => none
  | other => some (0, other)

/-- Parse the optional exponent part `[eE][+-]?[0-9]+`. -/
def parseExpPart : List Char → Option (ℤ × List Char)
  | c :: rest =>
    if c = 'e' ∨ c = 'E' then
      match rest with
      | '+' :: r2 =>
        match r2 with
        | d :: _ => if d.isDigit then
            let (v, _, r) := parseDigits r2 0 0
            some ((v : ℤ), r)
          else none
        | [] => none
      | '-' :: r2 =>
        match r2 with
        | d :: _ => if d.isDigit then
            let (v, _, r) := parseDigits r2 0 0
            some (-(v : ℤ), r)
          else none
        | [] => none
      | d :: _ =>
        if d.isDigit then
          let (v, _, r) := parseDigits rest 0 0
          some ((v : ℤ), r)
        else none
      | [] => none
    else some (0, c :: rest)
  | [] => some (0, [])

/-- Parse a JSON number `-?(0|[1-9][0-9]*)(\.[0-9]+)?([eE][+-]?[0-9]+)?`.
As in the Python `json` scanner, a literal without fraction and exponent
parts is parsed as an integer directly; otherwise it takes the float
path. -/
def parseNumber (cs : List Char) : Option (ℚ × List Char) :=
  let (neg, cs1) : Bool × List Char :=
    match cs with
    | '-' :: rest => (true, rest)
    | other => (false, other)
  match parseIntPart cs1 with
  | none => none
  | some (ip, cs2) =>
    let isFloat : Bool :=
      match cs2 with
      | c :: _ => c = '.' || c = 'e' || c = 'E'
      | [] => false
    if isFloat then
      match parseFracPart cs2 with
      | none => none
      | some (fp, cs3) =>
        match parseExpPart cs3 with
        | none => none
        | some (ex, cs4) =>
          let mag : ℚ := ((ip : ℚ) + fp) * (10 : ℚ) ^ ex
          some (if neg then -mag else mag, cs4)
    else
      some (if neg then -(ip : ℚ) else (ip : ℚ), cs2)

/-- Decode one string escape following a backslash; `\uXXXX` escapes are
decoded from four hex digits. -/
def parseEscape : List Char → Option (Char × List Char)
  | [] => none
  | c :: rest =>
    if c = '"' then some ('"', rest)
    else if c = '\\' then some ('\\', rest)
    else if c = '/' then some ('/', rest)
    else if c = 'b' then some ('\x08', rest)
    else if c = 'f' then some ('\x0c', rest)
    else if c = 'n' then some ('\n', rest)
    else if c = 'r' then some ('\r', rest)
    else if c = 't' then some ('\t', rest)
    else if c = 'u' then
      match rest with
      | h1 :: h2 :: h3 :: h4 :: r4 =>
        let hexVal (h : Char) : Option ℕ :=
          if h.isDigit then some (h.toNat - 48)
          else if 'a' ≤ h ∧ h ≤ 'f' then some (h.toNat - 87)
          else if 'A' ≤ h ∧ h ≤ 'F' then some (h.toNat - 55)
          else none
        match hexVal h1, hexVal h2, hexVal h3, hexVal h4 with
        | some v1, some v2, some v3, some v4 =>
          let v := ((v1 * 16 + v2) * 16 + v3) * 16 + v4
          if v < 0xd800 then some (Char.ofNat v, r4) else none
        | _, _, _, _ => none
      | _ => none
    else none

/-- Parse the body of a JSON string after the opening quote.  Raw control
characters below U+0020 are rejected, as by `json.loads` in strict mode. -/
def parseStringBody : ℕ → List Char → Option (List Char × List Char)
  | 0, _ => none
  | _, [] => none
  | fuel + 1, c :: rest =>
    if c = '"' then some ([], rest)
    else if c = '\\' then
      match parseEscape rest with
      | none => none
      | some (e, r) =>
        match parseStringBody fuel r with
        | none => none
        | some (body, rem) => some (e :: body, rem)
    else if c.toNat < 0x20 then none
    else
      match parseStringBody fuel rest with
      | none => none
      | some (body, rem) => some (c :: body, rem)

/-- Parse modes of the recursive-descent JSON reader: one JSON value,
the elements of a non-empty array, or the members of a non-empty object.
A single fuelled function is used so that the definition is structurally
recursive and reduces by `rfl`. -/
inductive PMode where
  | val : PMode
  | arrElems : PMode
  | objMembers : PMode

/-- Fuelled recursive descent over the grammar implemented by Python
`json.loads`. -/
def parseP : ℕ → PMode → List Char → Option (Json × List Char)
  | 0, _, _ => none
  | fuel + 1, PMode.val, cs =>
    match skipWs cs with
    | [] => none
    | c :: rest =>
      if c = 'n' then
        match charsHavePrefix "ull".toList rest with
        | true => some (Json.null, rest.drop 3)
        | false => none
      else if c = 't' then
        match charsHavePrefix "rue".toList rest with
        | true => some (Json.bool true, rest.drop 3)
        | false => none
      else if c = 'f' then
        match charsHavePrefix "alse".toList rest with
        | true => some (Json.bool false, rest.drop 4)
        | false => none
      else if c = '"' then
        match parseStringBody (rest.length + 1) rest with
        | none => none
        | some (body, rem) => some (Json.str (String.mk body), rem)
      else if c = '[' then
        match skipWs rest with
        | ']' :: rem => some (Json.arr [], rem)
        | other => parseP fuel PMode.arrElems other
      else if c = '{' then
        match skipWs rest with
        | '}' :: rem => some (Json.obj [], rem)
        | other => parseP fuel PMode.objMembers other
      else
        match parseNumber (c :: rest) with
        | none => none
        | some (q, rem) => some (Json.num q, rem)
  | fuel + 1, PMode.arrElems, cs =>
    match parseP fuel PMode.val cs with
    | none => none
    | some (v, rem) =>
      match skipWs rem with
      | ',' :: r2 =>
        match parseP fuel PMode.arrElems r2 with
        | some (Json.arr vs, r3) => some (Json.arr (v :: vs), r3)
        | _ => none
      | ']' :: r2 => some (Json.arr [v], r2)
      | _ => none
  | fuel + 1, PMode.objMembers, cs =>
    match skipWs cs with
    | '"' :: rest =>
      match parseStringBody (rest.length + 1) rest with
      | none => none
      | some (key, rem) =>
        match skipWs rem with
        | ':' :: r2 =>
          match parseP fuel PMode.val r2 with
          | none => none
          | some (v, r3) =>
            match skipWs r3 with
            | ',' :: r4 =>
              match parseP fuel PMode.objMembers r4 with
              | some (Json.obj kvs, r5) =>
                some (Json.obj ((String.mk key, v) :: kvs), r5)
              | _ => none
            | '}' :: r4 => some (Json.obj [(String.mk key, v)], r4)
            | _ => none
        | _ => none
    | _ => none

/-- Parse one JSON value. -/
def parseVal (fuel : ℕ) (cs : List Char) : Option (Json × List Char) :=
  parseP fuel PMode.val cs

/-- Python `json.loads` on a character list: parse one value and demand
that only whitespace remains. -/
def loadsChars (cs : List Char) : Option Json :=
  match parseVal (cs.length + 1) cs with
  | none => none
  | some (j, rest) =>
    match skipWs rest with
    | [] => some j
    | _ :: _ => none

end Wellbeing

namespace Wellbeing

/-! ## Data model (`app/models.py`)

`ContentItem.source_title`, `ContentItem.source_url`,
`ContentExplanation.url` and `PlanItem.evidence_url` are read and written
throughout `retrieval.py`, `orchestration.py` and `tests/test_flow.py`
and are listed in the specification data model, though the `models.py`
shipped under `src/` omits them; they are included here as optional
fields following that usage. -/

inductive Role where
  | user : Role
  | assistant : Role
  | system : Role
deriving DecidableEq

structure Message where
  role : Role
  content : String
deriving DecidableEq

structure Conversation where
  messages : List Message
deriving DecidableEq

structure UserContext where
  user_id : String
  mood : Option String := none
  available_minutes : Option ℤ := some 15
  focus_area : Option String := none
  preferences : Option (List String) := none
  constraints : Option (List String) := none
  timezone : Option String := some "UTC"
deriving DecidableEq

structure ReflectionSignals where
  sentiment : ℚ
  sentiment_confidence : ℚ
  sentiment_calibrated : ℚ
  sentiment_model : String
  reflection_score : ℚ
  top_themes : List String
  energy_level : String
  summary : String
deriving DecidableEq

/-- Modelled from the spec: the `source_title`/`source_url` fields of
`ContentItem` are absent from the `models.py` under `src/` but required by
`retrieval.py` (`_citation_text`, `citation_for`, `explain`), the spec
data model and the repository tests. -/
structure ContentItem where
  id : String
  title : String
  summary : String
  tags : List String
  body : String
  score : ℚ := 0
  source_title : Option String := none
  source_url : Option String := none
deriving DecidableEq

structure ContentExplanation where
  content_id : String
  snippet : String
  citation : String
  score : ℚ
  url : Option String := none
deriving DecidableEq

/-- Modelled from the spec: `evidence_url` is absent from the `models.py`
under `src/` but written by `orchestration.py` (fallback construction and
citation backfill) and asserted by the repository tests. -/
structure PlanItem where
  content_id : String
  title : String
  duration_minutes : ℤ
  why_it_helps : String
  instructions : String
  evidence_citation : Option String := none
  evidence_url : Option String := none
deriving DecidableEq

structure Plan where
  day : String
  items : List PlanItem
  caution : Option String := none
deriving DecidableEq

/-- Python truthiness of an optional string: `None` and `""` are falsy. -/
def truthyOpt : Option String → Bool
  | none => false
  | some s => !(s = "")

end Wellbeing

namespace Wellbeing

/-! ## Signal Extractor (`app/reflection.py`) -/

/-- `THEME_KEYWORDS`, in source order. -/
def themeKeywords : List (String × List String) :=
  [ ("stress", ["stress", "overwhelm", "anxious", "anxiety", "pressure", "tense", "deadline"]),
    ("sleep", ["sleep", "insomnia", "tired", "restless", "bedtime", "woke", "nap", "drowsy"]),
    ("mobility", ["back", "posture", "stiff", "ache", "stretch", "tight", "shoulder", "neck"]),
    ("focus", ["distract", "focus", "concentrate", "procrastinate", "deep work", "productive", "keep up"]),
    ("gratitude", ["grateful", "gratitude", "thankful", "appreciate", "blessings"]),
    ("energy", ["exhausted", "fatigued", "energized", "sluggish", "wired", "alert", "vibrant"]),
    ("mood", ["sad", "down", "blue", "happy", "joy", "calm", "irritable", "frustrated"]),
    ("loneliness", ["lonely", "isolated", "alone", "no one", "disconnected"]),
    ("body image", ["body", "appearance", "weight", "image", "mirror", "self-conscious"]),
    ("burnout", ["burnout", "burn out", "burned out", "burnt out", "drained", "fried", "overloaded"]) ]

/-- The heuristic sentiment backend (`SentimentService.score`, bottom
tier): keyword counting at plus or minus 0.4 per hit, clamped to
`[-1,1]`; confidence fixed at 0.35; calibrated = 0.8 times the score. -/
def heuristicScore (text : String) : ℚ × ℚ × ℚ × String :=
  let tl := lowerStr text
  let posWords := ["good", "great", "calm", "happy", "okay", "content"]
  let negWords := ["bad", "tired", "stressed", "sad", "anxious", "overwhelmed"]
  let p : ℚ := (posWords.filter (fun w => strContains tl w)).length
  let n : ℚ := (negWords.filter (fun w => strContains tl w)).length
  let score := max (-1) (min 1 ((2 / 5) * p - (2 / 5) * n))
  (score, 35 / 100, score * (8 / 10), "heuristic")

/-- Post-processing of the VADER backend (`SentimentService.score`,
middle tier) applied to its compound score. -/
def vaderPost (compound : ℚ) : ℚ × ℚ × ℚ × String :=
  (compound, max (2 / 10) (1 - |compound| * (25 / 100)),
   max (-1) (min 1 (compound * (9 / 10))), "vader")

/-- Post-processing of the DistilBERT backend (`SentimentService.score`,
top tier) applied to its positive/negative class probabilities. -/
def distilbertPost (positive negative : ℚ) : ℚ × ℚ × ℚ × String :=
  (positive - negative, max positive negative,
   max (-1) (min 1 ((positive - 55 / 100) / (45 / 100))), "distilbert")

/-- `_themes` in `reflection.py`: themes whose keyword lists have a
word-bounded match in the lowercased text, plus the lowercased
`focus_area` (when truthy) and any lowercased preference that is a known
theme name; defaults to `["stress"]` when empty; returned sorted (the
Python code sorts the resulting set). -/
def themesOf (text : String) (context : UserContext) : List String :=
  let tl := (lowerStr text).toList
  let matched := themeKeywords.filterMap fun tk =>
    if tk.2.any (fun kw => wbMatch kw tl) then some tk.1 else none
  let focus : List String :=
    if truthyOpt context.focus_area then [lowerStr (context.focus_area.getD "")] else []
  let prefs : List String :=
    match context.preferences with
    | none => []
    | some ps => ps.filterMap fun p =>
        let key := lowerStr p
        if themeKeywords.any (fun tk => tk.1 = key) then some key else none
  let found := (matched ++ focus ++ prefs).dedup
  let found := if found = [] then ["stress"] else found
  found.insertionSort (· ≤ ·)

/-- `_energy_from_text` in `reflection.py`. -/
def energyFromText (text : String) : String :=
  let tl := lowerStr text
  if ["exhausted", "tired", "drained", "burned out", "burnt out", "wiped", "burnout"].any
      (fun k => strContains tl k) then "low"
  else if ["wired", "alert", "motivated", "ready", "pumped", "energized"].any
      (fun k => strContains tl k) then "high"
  else "medium"

/-- `_reflection_score` in `reflection.py`: the energy adjustment is the
dictionary lookup with default 0. -/
def reflectionScoreOf (calibrated : ℚ) (themes : List String) (energy : String) : ℚ :=
  let theme_bonus := min (2 / 10) ((5 / 100) * (themes.length : ℚ))
  let energy_adjust : ℚ :=
    if energy = "low" then -(1 / 10)
    else if energy = "medium" then 0
    else if energy = "high" then 8 / 100
    else 0
  let raw := 1 / 2 + (4 / 10) * calibrated + theme_bonus + energy_adjust
  max 0 (min 1 raw)

/-- The full conversation text, messages joined with newlines. -/
def fullTextOf (conversation : Conversation) : String :=
  String.intercalate "\n" (conversation.messages.map (·.content))

/-- The text handed to the sentiment backend: the conversation text
merged with the free-text mood when one is present (`analyze` checks
`context.mood is None`, so an empty mood string is still appended). -/
def mergedTextOf (conversation : Conversation) (context : UserContext) : String :=
  match context.mood with
  | none => fullTextOf conversation
  | some m => fullTextOf conversation ++ " " ++ m

/-- `analyze` in `reflection.py`, parameterized over the sentiment
backend selected at process start (`_SENTIMENT_SERVICE.score`).  The
summary is assembled from the same pieces as the source f-string; the
two-decimal float formatting is rendered with `toString`, which no claim
depends on. -/
def analyzeWith (scoreFn : String → ℚ × ℚ × ℚ × String)
    (conversation : Conversation) (context : UserContext) : ReflectionSignals :=
  let full_text := fullTextOf conversation
  let merged := mergedTextOf conversation context
  let (raw_sentiment, confidence, calibrated, backend) := scoreFn merged
  let themes := themesOf full_text context
  let energy := energyFromText merged
  let reflection_score := reflectionScoreOf calibrated themes energy
  { sentiment := raw_sentiment
    sentiment_confidence := confidence
    sentiment_calibrated := calibrated
    sentiment_model := backend
    reflection_score := reflection_score
    top_themes := themes
    energy_level := energy
    summary := "Sentiment " ++ toString raw_sentiment ++ " (" ++ backend ++ ", conf "
      ++ toString confidence ++ "). Calibrated " ++ toString calibrated ++ ". Themes: "
      ++ String.intercalate ", " themes ++ ". Energy: " ++ energy ++ "." }

end Wellbeing

namespace Wellbeing

/-! ## Validators (`app/validators.py`) -/

/-- `validate_plan`: the first loop rejects non-positive or over-long
durations and missing citations, the second rejects denylisted unsafe
keywords in the title. -/
def validate_plan (plan : Plan) : Bool × String :=
  let total := (plan.items.map (·.duration_minutes)).sum
  if total ≤ 0 then (false, "Plan has no time allocated.")
  else
    match plan.items.findSome? (fun it =>
      if it.duration_minutes ≤ 0 ∨ it.duration_minutes > 240 then
        some ("Invalid duration for item " ++ it.title ++ ".")
      else if !truthyOpt it.evidence_citation then
        some ("Missing evidence citation for " ++ it.content_id ++ ".")
      else none) with
    | some reason => (false, reason)
    | none =>
      if plan.items.any (fun it =>
          ["fasting", "ice bath", "supplement"].any
            (fun x => strContains (lowerStr it.title) x)) then
        (false, "Potentially unsafe recommendation detected.")
      else (true, "")

/-- `cap_life_quality_delta` in `validators.py`. -/
def cap_life_quality_delta (previous : Option ℚ) (candidate : ℚ)
    (limit : ℚ := 15) : ℚ :=
  match previous with
  | none => max 0 (min 100 candidate)
  | some prev =>
    let delta := candidate - prev
    let candidate :=
      if delta > limit then prev + limit
      else if delta < -limit then prev - limit
      else candidate
    max 0 (min 100 candidate)

end Wellbeing

namespace Wellbeing

/-! ## Life Quality Engine (`app/life_quality.py`) -/

/-- The space-joined, lowercased conversation text scanned by
`infer_action_adherence`. -/
def adherenceText (conversation : Conversation) : String :=
  String.intercalate " " (conversation.messages.map (fun m => lowerStr m.content))

/-- Presence of a positive adherence keyword (Python substring `in`). -/
def adherencePositive (text : String) : Bool :=
  ["completed", "did", "finished", "done", "stuck with", "followed"].any
    (fun k => strContains text k)

/-- Presence of a negative adherence keyword (Python substring `in`). -/
def adherenceNegative (text : String) : Bool :=
  ["skipped", "couldn\x27t", "didn\x27t", "avoid", "failed"].any
    (fun k => strContains text k)

/-- `infer_action_adherence`: keyword containment is Python substring
containment over the space-joined, lowercased message contents. -/
def infer_action_adherence (conversation : Conversation) : ℚ :=
  let text := adherenceText conversation
  if text = "" then 6 / 10
  else
    let positive := adherencePositive text
    let negative := adherenceNegative text
    if positive ∧ ¬negative then 85 / 100
    else if negative ∧ ¬positive then 35 / 100
    else if positive ∧ negative then 55 / 100
    else 6 / 10

/-- `compute_lqi_score` in `life_quality.py`. -/
def compute_lqi_score (signals : ReflectionSignals) (sentiment_delta adherence : ℚ) : ℚ :=
  let sentiment_component := max (-1) (min 1 sentiment_delta) * 20
  let calibrated := max (-1) (min 1 signals.sentiment_calibrated) * 25
  let theme_penalty : ℚ := if "stress" ∈ signals.top_themes then -10 else 0
  let theme_penalty := theme_penalty + if "sleep" ∈ signals.top_themes then -5 else 0
  let adherence_component := (adherence - 1 / 2) * 40
  let base : ℚ := 65
  let score := base + sentiment_component + calibrated + theme_penalty + adherence_component
  max 0 (min 100 score)

end Wellbeing

namespace Wellbeing

/-! ## Content Index and Retrieval Ranker (`app/retrieval.py`) -/

/-- One indexed document of `LocalVectorStore`: the `ContentItem` stored
as metadata together with its embedding vector. -/
abbrev StoreEntry := ContentItem × List ℚ

/-- Dot product of two pre-normalized vectors (`self.embeddings @ query_vec`). -/
def dotQ (a b : List ℚ) : ℚ :=
  (List.zipWith (· * ·) a b).sum

/-- `0.12 * len(theme_boost & tags)` in `LocalVectorStore.query`: the
caller passes already-lowercased themes, the store lowercases the tags;
both are Python sets, modelled by `Finset`. -/
def themeBoostCount (themes tags : List String) : ℕ :=
  (themes.toFinset ∩ (tags.map lowerStr).toFinset).card

/-- The boosted score `sims[idx] + boost` assigned to an entry. -/
def boostedScore (queryVec : List ℚ) (themes : List String) (e : StoreEntry) : ℚ :=
  dotQ e.2 queryVec + (12 / 100) * (themeBoostCount themes e.1.tags : ℚ)

/-- Descending order on scored entries; `list.sort(key=..., reverse=True)`
is a stable sort, modelled by `insertionSort` with this non-strict
relation. -/
abbrev scoreDesc (a b : ℚ × StoreEntry) : Prop := b.1 ≤ a.1

instance : IsTotal (ℚ × StoreEntry) scoreDesc := ⟨fun a b => le_total b.1 a.1⟩

instance : IsTrans (ℚ × StoreEntry) scoreDesc := ⟨fun _ _ _ h1 h2 => le_trans h2 h1⟩

/-- `LocalVectorStore.query`: score every indexed document, sort stably
by descending boosted score, return the first `topk`. -/
def storeQuery (entries : List StoreEntry) (queryVec : List ℚ) (topk : ℕ)
    (themeBoost : List String) : List (ℚ × StoreEntry) :=
  match entries with
  | [] => []
  | _ :: _ =>
    ((entries.map fun e => (boostedScore queryVec themeBoost e, e)).insertionSort
      scoreDesc).take topk

/-- `ContentRepository.search`: normalize the themes, query the store and
return `ContentItem` copies annotated with the boosted score.  The query
text is represented by its frozen-backend embedding `queryVec`. -/
def searchRepo (entries : List StoreEntry) (queryVec : List ℚ) (themes : List String)
    (topk : ℕ) : List ContentItem :=
  match entries with
  | [] => []
  | _ :: _ =>
    let normalized := (themes.map lowerStr).dedup
    (storeQuery entries queryVec topk normalized).map fun hit =>
      { hit.2.1 with score := hit.1 }

/-- `pick_durations` in `retrieval.py`: walk the slot ladder in order,
keeping every slot at most `max 5 available_minutes` until two are
chosen (the loop with its break equals taking the first two qualifying
slots); if none qualified use a single `min 5 available_minutes` slot. -/
def pick_durations (available_minutes : ℤ) : List ℤ :=
  let slots : List ℤ := [5, 10, 15, 20, 25, 30]
  let chosen := (slots.filter (fun s => s ≤ max 5 available_minutes)).take 2
  if chosen = [] then [min 5 available_minutes] else chosen

/-- `ContentRepository._citation_text`. -/
def citationText (item : ContentItem) : String :=
  if truthyOpt item.source_title ∧ truthyOpt item.source_url then
    item.source_title.getD ""
  else
    let primary_tag := match item.tags with
      | [] => "general"
      | t :: _ => t
    item.id ++ ":" ++ primary_tag

/-- `ContentRepository.citation_for`. -/
def citation_for (item : ContentItem) : String × Option String :=
  (citationText item, item.source_url)

end Wellbeing

namespace Wellbeing

/-! ## Generator boundary (`app/providers.py`) -/

/-- The span matched by `re.search(r"\{.*\}", text, flags=re.S)`: the
leftmost possible start is the first brace, and the greedy `.*` extends
the match to the last closing brace of the whole text. -/
def braceSpan (cs : List Char) : Option (List Char) :=
  match cs.findIdx? (· = '{'), cs.reverse.findIdx? (· = '}') with
  | some i, some jr =>
    let j := cs.length - 1 - jr
    if i ≤ j then some ((cs.drop i).take (j - i + 1)) else none
  | _, _ => none

/-- `BaseLLM.generate_json` applied to the generated text: direct parse,
then parse of the regex-extracted span, then the `{"raw": text}`
fallback. -/
def generate_json (text : String) : Json :=
  match loadsChars text.toList with
  | some j => j
  | none =>
    match braceSpan text.toList with
    | some span =>
      match loadsChars span with
      | some j => j
      | none => Json.obj [("raw", Json.str text)]
    | none => Json.obj [("raw", Json.str text)]

end Wellbeing

namespace Wellbeing

/-! ## Plan Assembler (`app/orchestration.py`, steps 3 to the final
citation backfill of `Orchestrator.run`) -/

/-- Python `key in value` on a parsed JSON value, as in
`"items" not in plan_json`: key membership for dicts, element equality
for lists, substring containment for strings, and a `TypeError` for the
non-iterable scalars. -/
def jsonContainsKey (j : Json) (key : String) : Except String Bool :=
  match j with
  | Json.obj kvs => .ok (kvs.any (fun kv => kv.1 = key))
  | Json.arr xs => .ok (xs.any (fun x =>
      match x with
      | Json.str s => s = key
      | _ => false))
  | Json.str s => .ok (strContains s key)
  | _ => .error "TypeError: argument of type int/float/bool/NoneType is not iterable"

/-- Dict lookup on a parsed JSON object; `json.loads` keeps the last
duplicate key. -/
def jsonGetKey (kvs : List (String × Json)) (key : String) : Option Json :=
  (kvs.reverse.find? (fun kv => kv.1 = key)).map (·.2)

/-- Pydantic coercion to a string field (lax mode does not convert
numbers to strings). -/
def coerceStr : Json → Option String
  | Json.str s => some s
  | _ => none

/-- Digits of a decimal integer literal. -/
def digitsToNat : List Char → Option ℕ
  | [] => none
  | cs => cs.foldl (fun acc c =>
      match acc with
      | none => none
      | some v => if c.isDigit then some (v * 10 + (c.toNat - 48)) else none)
      (some 0)

/-- Pydantic coercion to an int field: integral numbers and decimal
integer strings are accepted. -/
def coerceInt : Json → Option ℤ
  | Json.num q => if q.den = 1 then some q.num else none
  | Json.str s =>
    match s.toList with
    | '-' :: rest => (digitsToNat rest).map (fun n => -(n : ℤ))
    | cs => (digitsToNat cs).map (fun n => (n : ℤ))
  | _ => none

/-- Pydantic coercion to an `Optional[str]` field with default `None`:
absent or null yields `None`, a string yields itself. -/
def coerceOptStr : Option Json → Option (Option String)
  | none => some none
  | some Json.null => some none
  | some (Json.str s) => some (some s)
  | some _ => none

/-- `PlanItem(**it)`: succeeds only on a mapping carrying all required
fields with coercible values (extra keys are ignored by pydantic). -/
def coercePlanItem (j : Json) : Option PlanItem :=
  match j with
  | Json.obj kvs => do
    let cid ← (jsonGetKey kvs "content_id").bind coerceStr
    let title ← (jsonGetKey kvs "title").bind coerceStr
    let dur ← (jsonGetKey kvs "duration_minutes").bind coerceInt
    let why ← (jsonGetKey kvs "why_it_helps").bind coerceStr
    let instructions ← (jsonGetKey kvs "instructions").bind coerceStr
    let ec ← coerceOptStr (jsonGetKey kvs "evidence_citation")
    let eu ← coerceOptStr (jsonGetKey kvs "evidence_url")
    pure { content_id := cid, title := title, duration_minutes := dur,
           why_it_helps := why, instructions := instructions,
           evidence_citation := ec, evidence_url := eu }
  | _ => none

/-- Python `str(...)` of the JSON `day` value (container reprs are
abstracted; no claim reads `Plan.day` for a non-string value). -/
def pyStr : Json → String
  | Json.str s => s
  | Json.null => "None"
  | Json.bool true => "True"
  | Json.bool false => "False"
  | Json.num q => toString q
  | Json.arr _ => "[...]"
  | Json.obj _ => "\x7b...\x7d"

/-- One fallback item dict built in step 3b of `Orchestrator.run`. -/
def fallbackItemJson (available : ℤ) (signals : ReflectionSignals)
    (explanations : List ContentExplanation) (dur : ℤ) (c : ContentItem) : Json :=
  let rationale :=
    match explanations.find? (fun exp => exp.content_id = c.id) with
    | some exp => exp.snippet
    | none => c.summary
  let cit := citation_for c
  Json.obj
    [ ("content_id", Json.str c.id),
      ("title", Json.str c.title),
      ("duration_minutes", Json.num ((min dur available : ℤ) : ℚ)),
      ("why_it_helps", Json.str (rationale ++ " (themes: "
        ++ String.intercalate ", " signals.top_themes ++ ")")),
      ("instructions", Json.str c.body),
      ("evidence_citation", Json.str cit.1),
      ("evidence_url", match cit.2 with
        | none => Json.null
        | some u => Json.str u) ]

/-- `Orchestrator._enrich_plan_with_citations` for one plan item. -/
def enrichItem (candidates : List ContentItem) (item : PlanItem) : PlanItem :=
  match (candidates.reverse.find? (fun c => c.id = item.content_id)) with
  | none => item
  | some contentRef =>
    let cit := citation_for contentRef
    let item :=
      if !truthyOpt item.evidence_citation then
        { item with evidence_citation := some cit.1 }
      else item
    if !truthyOpt item.evidence_url ∧ truthyOpt cit.2 then
      { item with evidence_url := cit.2 }
    else item

/-- `Orchestrator._enrich_plan_with_citations`: the citation backfill. -/
def enrichPlanWithCitations (plan : Plan) (candidates : List ContentItem) : Plan :=
  { plan with items := plan.items.map (enrichItem candidates) }

/-- The step 3b validity check of `Orchestrator.run` (line 97): the
generator output is usable only when `"items" in plan_json` holds, the
`items` value is a list, and that list is non-empty.  The membership
test raises `TypeError` on non-iterable scalars, and `.get` raises
`AttributeError` when the parsed output is a list or string containing
`"items"`. -/
def itemsCheckNeedsFallback (genOut : Json) : Except String Bool := do
  let contains ← jsonContainsKey genOut "items"
  if !contains then pure true
  else
    match genOut with
    | Json.obj kvs =>
      match jsonGetKey kvs "items" with
      | some (Json.arr xs) => pure xs.isEmpty
      | some _ => pure true
      | none => pure true
    | _ => throw "AttributeError: object has no attribute get"

/-- Steps 3b onward of `Orchestrator.run`: the validity check on the
generator output, fallback construction, `PlanItem` parsing with the
defensive `candidates[0]` fallback, citation backfill, guardrail
validation with substitution, and the final backfill.  `Except.error`
models an uncaught Python exception escaping `run`. -/
def planPipeline (genOut : Json) (candidates : List ContentItem)
    (signals : ReflectionSignals) (available : ℤ)
    (explanations : List ContentExplanation) : Except String Plan := do
  let fallbackNeeded ← itemsCheckNeedsFallback genOut
  let planJson : Json :=
    if fallbackNeeded then
      Json.obj
        [ ("day", Json.str "today"),
          ("items", Json.arr (((pick_durations available).zip candidates).map
            (fun dc => fallbackItemJson available signals explanations dc.1 dc.2))) ]
    else genOut
  let itemsJson : List Json :=
    match planJson with
    | Json.obj kvs =>
      match jsonGetKey kvs "items" with
      | some (Json.arr xs) => xs
      | _ => []
    | _ => []
  let plan ←
    match itemsJson.mapM coercePlanItem with
    | some items =>
      let day :=
        match planJson with
        | Json.obj kvs =>
          match jsonGetKey kvs "day" with
          | some d => pyStr d
          | none => "today"
        | _ => "today"
      pure { day := day, items := items.take 2, caution := none : Plan }
    | none =>
      match candidates with
      | [] => throw "IndexError: list index out of range"
      | first :: _ =>
        let cit := citation_for first
        pure { day := "today",
               items := [{ content_id := first.id, title := first.title,
                           duration_minutes := min 5 available,
                           why_it_helps := "Quick reset",
                           instructions := first.body,
                           evidence_citation := some cit.1,
                           evidence_url := cit.2 }],
               caution := none : Plan }
  let plan := enrichPlanWithCitations plan candidates
  let validated := validate_plan plan
  let plan :=
    if validated.1 then plan
    else
      match candidates with
      | first :: _ =>
        let cit := citation_for first
        { day := "today",
          items := [{ content_id := first.id, title := first.title,
                      duration_minutes := min 5 available,
                      why_it_helps := "Simple, safe, and time-bound. Built from curated wellbeing content.",
                      instructions := first.body,
                      evidence_citation := some cit.1,
                      evidence_url := cit.2 }],
          caution := some validated.2 }
      | [] => { day := "today", items := [], caution := some validated.2 }
  pure (enrichPlanWithCitations plan candidates)

end Wellbeing

namespace Wellbeing

/-! ## Concrete fixtures used by witnesses and counterexamples -/

/-- A neutral signal bundle (the values `analyze` produces for a bland
conversation), used to instantiate the pipeline concretely. -/
def sigNeutral : ReflectionSignals :=
  { sentiment := 0, sentiment_confidence := 35 / 100, sentiment_calibrated := 0,
    sentiment_model := "heuristic", reflection_score := 11 / 20,
    top_themes := ["stress"], energy_level := "medium", summary := "" }

/-- A concrete corpus item. -/
def itemBreath : ContentItem :=
  { id := "ritual-breathing", title := "5-Minute Breathing Reset",
    summary := "A quick breathing routine.", tags := ["stress", "breathing"],
    body := "Inhale four counts. Exhale six counts." }

/-- A second concrete corpus item. -/
def itemStretch : ContentItem :=
  { id := "desk-stretch", title := "Desk Stretch Break",
    summary := "Gentle mobility at the desk.", tags := ["mobility"],
    body := "Roll the shoulders. Stretch the neck." }

end Wellbeing

namespace Wellbeing

/-! ## Claim theorems -/

/-- C1: the spec promises that `Orchestrator.run` always returns a
complete response and never raises, for every generator output and every
corpus including the empty one.  The code contradicts this: with an
empty corpus and a generator output carrying a non-empty `items` list
whose elements fail `PlanItem` coercion, the defensive `except` handler
evaluates `candidates[0]` and raises `IndexError`. -/
theorem c1_run_raises_on_empty_corpus :
    planPipeline (Json.obj [("items", Json.arr [Json.num 1])]) [] sigNeutral 15 []
      = Except.error "IndexError: list index out of range" := by
  rfl

/-- C2: the change cap.  With a previous score in `[0,100]` the capped
result stays within 15 points of it and inside `[0,100]`; with no
previous score the candidate is clamped to `[0,100]`. -/
theorem c2_cap_law (P C : ℚ) (h0 : 0 ≤ P) (h1 : P ≤ 100) :
    |cap_life_quality_delta (some P) C - P| ≤ 15 ∧
    0 ≤ cap_life_quality_delta (some P) C ∧
    cap_life_quality_delta (some P) C ≤ 100 ∧
    cap_life_quality_delta none C = max 0 (min 100 C) := by
  have key : ∀ y : ℚ, P - 15 ≤ y → y ≤ P + 15 →
      |max 0 (min 100 y) - P| ≤ 15 ∧ 0 ≤ max 0 (min 100 y) ∧ max 0 (min 100 y) ≤ 100 := by
    intro y hy1 hy2
    have l1 : (0 : ℚ) ≤ max 0 (min 100 y) := le_max_left 0 _
    have l2 : max 0 (min 100 y) ≤ 100 := max_le (by norm_num) (min_le_left _ _)
    have l3 : max 0 (min 100 y) - P ≤ 15 := by
      rcases le_or_lt (min 100 y) 0 with h | h
      · rw [max_eq_left h]
        linarith
      · rw [max_eq_right h.le]
        have := min_le_right (100 : ℚ) y
        linarith
    have l4 : -(15 : ℚ) ≤ max 0 (min 100 y) - P := by
      have hmin : P - 15 ≤ min 100 y := le_min (by linarith) hy1
      have := le_max_right (0 : ℚ) (min 100 y)
      linarith
    exact ⟨abs_le.mpr ⟨l4, l3⟩, l1, l2⟩
  have main : |cap_life_quality_delta (some P) C - P| ≤ 15 ∧
      0 ≤ cap_life_quality_delta (some P) C ∧
      cap_life_quality_delta (some P) C ≤ 100 := by
    unfold cap_life_quality_delta
    dsimp only
    split_ifs with hgt hlt
    · exact key (P + 15) (by linarith) (by linarith)
    · exact key (P - 15) (by linarith) (by linarith)
    · exact key C (by linarith [not_lt.mp hlt]) (by linarith [not_lt.mp hgt])
  exact ⟨main.1, main.2.1, main.2.2, rfl⟩

/-- Witness for C2 at `P = 50`, `C = 90`: the cap pulls the result to 65. -/
theorem c2_cap_law_witness :
    (0 : ℚ) ≤ 50 ∧ (50 : ℚ) ≤ 100 ∧
    (|cap_life_quality_delta (some 50) 90 - 50| ≤ 15 ∧
     0 ≤ cap_life_quality_delta (some 50) 90 ∧
     cap_life_quality_delta (some 50) 90 ≤ 100 ∧
     cap_life_quality_delta none 90 = max 0 (min 100 90)) :=
  ⟨by norm_num, by norm_num, c2_cap_law 50 90 (by norm_num) (by norm_num)⟩

/-- C3: `compute_lqi_score` equals the closed-form
`65 + 20*clamp(sentiment_delta) + 25*clamp(calibrated) + theme_penalty +
40*(adherence - 0.5)` clamped to `[0,100]`, where the theme penalty is
-10 for "stress" plus an additional -5 for "sleep". -/
theorem c3_lqi_formula (signals : ReflectionSignals) (sentiment_delta adherence : ℚ) :
    compute_lqi_score signals sentiment_delta adherence =
      max 0 (min 100
        (65 + 20 * max (-1) (min 1 sentiment_delta)
            + 25 * max (-1) (min 1 signals.sentiment_calibrated)
            + ((if "stress" ∈ signals.top_themes then (-10 : ℚ) else 0)
               + (if "sleep" ∈ signals.top_themes then (-5 : ℚ) else 0))
            + 40 * (adherence - 1 / 2))) := by
  unfold compute_lqi_score
  ring_nf

/-- C5: the spec invariant that every assembler-constructed plan fits in
`available_minutes` fails, and the `pick_durations` docstring ("choose
1-2 items that sum to <= available_minutes") is contradicted by its own
code: at `available_minutes = 10` with two candidates the fallback plan
allocates 5 + 10 = 15 minutes. -/
theorem c5_fallback_exceeds_budget :
    pick_durations 10 = [5, 10] ∧
    (planPipeline (Json.obj [("raw", Json.str "unusable")])
        [itemBreath, itemStretch] sigNeutral 10 []).map
      (fun p => (p.items.map (fun it => it.duration_minutes)).sum) = Except.ok 15 ∧
    ¬ ((15 : ℤ) ≤ 10) := by
  refine ⟨rfl, rfl, by norm_num⟩

end Wellbeing

namespace Wellbeing

/-! ### Substring lemmas for C4 -/

/-- Prefix tests compose: a prefix of a prefix is a prefix. -/
theorem charsHavePrefix_trans :
    ∀ {p n h : List Char}, charsHavePrefix p n = true →
      charsHavePrefix n h = true → charsHavePrefix p h = true := by
  intro p
  induction p with
  | nil => intro n h _ _; rfl
  | cons a as ih =>
    intro n h hpn hnh
    cases n with
    | nil => simp [charsHavePrefix] at hpn
    | cons b bs =>
      cases h with
      | nil => simp [charsHavePrefix] at hnh
      | cons c cs =>
        simp only [charsHavePrefix, Bool.and_eq_true, decide_eq_true_eq] at hpn hnh ⊢
        exact ⟨hpn.1.trans hnh.1, ih hpn.2 hnh.2⟩

/-- If a text contains `n` and `p` is a prefix of `n`, the text contains
`p`; this is why a text containing "didn\x27t" also contains "did". -/
theorem charsContain_mono :
    ∀ {p n : List Char} (h : List Char), charsHavePrefix p n = true →
      charsContain n h = true → charsContain p h = true := by
  intro p n h hpn
  induction h with
  | nil =>
    intro hnh
    simp only [charsContain, List.isEmpty_iff] at hnh
    subst hnh
    cases p with
    | nil => rfl
    | cons a as => simp [charsHavePrefix] at hpn
  | cons c cs ih =>
    intro hnh
    simp only [charsContain, Bool.or_eq_true] at hnh ⊢
    rcases hnh with hpre | hrest
    · exact Or.inl (charsHavePrefix_trans hpn hpre)
    · exact Or.inr (ih hrest)

/-- C4 counterexample: the claim asserts that a conversation whose only
adherence keyword is "didn\x27t" yields 0.35, but "didn\x27t" contains the
positive keyword "did" as a substring, so the code returns 0.55. -/
theorem c4_counterexample :
    infer_action_adherence ⟨[⟨Role.user, "I didn\x27t do the breathing exercise"⟩]⟩
      = 55 / 100 ∧ (55 / 100 : ℚ) ≠ 35 / 100 :=
  ⟨rfl, by norm_num⟩

/-- C4 (amended): the keyword-class mapping holds with substring
semantics (positive-only 0.85, negative-only 0.35, both 0.55, neither or
empty 0.6), and in particular any conversation containing "didn\x27t" also
contains "did" and therefore yields 0.55, not 0.35. -/
theorem c4_adherence_amended (conversation : Conversation) :
    (adherencePositive (adherenceText conversation) = true →
      adherenceNegative (adherenceText conversation) = false →
      infer_action_adherence conversation = 85 / 100) ∧
    (adherenceNegative (adherenceText conversation) = true →
      adherencePositive (adherenceText conversation) = false →
      infer_action_adherence conversation = 35 / 100) ∧
    (adherencePositive (adherenceText conversation) = true →
      adherenceNegative (adherenceText conversation) = true →
      infer_action_adherence conversation = 55 / 100) ∧
    ((adherenceText conversation = "" ∨
      (adherencePositive (adherenceText conversation) = false ∧
       adherenceNegative (adherenceText conversation) = false)) →
      infer_action_adherence conversation = 6 / 10) ∧
    (strContains (adherenceText conversation) "didn\x27t" = true →
      infer_action_adherence conversation = 55 / 100) := by
  have hempty : adherenceText conversation = "" →
      adherencePositive (adherenceText conversation) = false ∧
      adherenceNegative (adherenceText conversation) = false := by
    intro h
    rw [h]
    exact ⟨by decide, by decide⟩
  have hmain : ∀ hp hn : Bool,
      adherencePositive (adherenceText conversation) = hp →
      adherenceNegative (adherenceText conversation) = hn →
      infer_action_adherence conversation =
        if hp && !hn then 85 / 100
        else if hn && !hp then 35 / 100
        else if hp && hn then 55 / 100
        else 6 / 10 := by
    intro hp hn hhp hhn
    unfold infer_action_adherence
    dsimp only
    split_ifs with h1 h2 h3 h4 <;> simp_all
  refine ⟨?_, ?_, ?_, ?_, ?_⟩
  · intro hp hn
    rw [hmain true false hp hn]
    rfl
  · intro hn hp
    rw [hmain false true hp hn]
    rfl
  · intro hp hn
    rw [hmain true true hp hn]
    rfl
  · intro hcase
    rcases hcase with h | ⟨hp, hn⟩
    · rcases hempty h with ⟨hp, hn⟩
      rw [hmain false false hp hn]
      rfl
    · rw [hmain false false hp hn]
      rfl
  · intro hd
    have hneg : adherenceNegative (adherenceText conversation) = true := by
      unfold adherenceNegative
      refine List.any_eq_true.mpr ⟨"didn\x27t", by simp, hd⟩
    have hdid : strContains (adherenceText conversation) "did" = true :=
      charsContain_mono _ (by decide) hd
    have hpos : adherencePositive (adherenceText conversation) = true := by
      unfold adherencePositive
      refine List.any_eq_true.mpr ⟨"did", by simp, hdid⟩
    rw [hmain true true hpos hneg]
    rfl

/-- Witness for the amended C4: a negative-only conversation yields 0.35. -/
theorem c4_adherence_amended_witness :
    infer_action_adherence ⟨[⟨Role.user, "I skipped the walk"⟩]⟩ = 35 / 100 :=
  (c4_adherence_amended _).2.1 (by decide) (by decide)

end Wellbeing

namespace Wellbeing

/-- C8 counterexample: on the empty corpus `search` does return the
empty sequence, but the assembler then produces a plan with ZERO items
(and the caution set), not the single-item defensive fallback the claim
describes. -/
theorem c8_counterexample :
    searchRepo [] [1] ["stress"] 5 = [] ∧
    (planPipeline (Json.obj [("raw", Json.str "no usable items")]) [] sigNeutral 15 []).map
      (fun p => (p.items.length, p.caution))
      = Except.ok (0, some "Plan has no time allocated.") ∧
    (0 : ℕ) ≠ 1 :=
  ⟨rfl, rfl, by norm_num⟩

/-- C8 (amended): when the Content Index is empty, `search` returns an
empty sequence (never an error), and whenever the generator output
triggers the fallback path the assembler produces an EMPTY-item plan
with the caution field set. -/
theorem c8_empty_corpus_amended (genOut : Json) (queryVec : List ℚ)
    (themes : List String) (topk : ℕ) (signals : ReflectionSignals)
    (available : ℤ) (explanations : List ContentExplanation)
    (hfb : itemsCheckNeedsFallback genOut = Except.ok true) :
    searchRepo [] queryVec themes topk = [] ∧
    planPipeline genOut [] signals available explanations =
      Except.ok { day := "today", items := [],
                  caution := some "Plan has no time allocated." } := by
  refine ⟨rfl, ?_⟩
  unfold planPipeline
  rw [hfb]
  simp only [List.zip_nil_right, List.map_nil]
  rfl

/-- Witness for the amended C8 at a generator output without an `items`
key. -/
theorem c8_empty_corpus_amended_witness :
    searchRepo [] [1] ["stress"] 5 = [] ∧
    planPipeline (Json.obj [("raw", Json.str "x")]) [] sigNeutral 15 [] =
      Except.ok { day := "today", items := [],
                  caution := some "Plan has no time allocated." } :=
  c8_empty_corpus_amended (Json.obj [("raw", Json.str "x")]) [1] ["stress"] 5
    sigNeutral 15 [] rfl

/-- The text used for the C9 counterexample: its first balanced-brace
substring is the valid JSON object before the tail, but the greedy
regex span runs to the last closing brace. -/
def c9Text : String := "\x7b\"a\": 1\x7d tail \x7b\"b\": 2\x7d"

/-- C9 counterexample: the first balanced-brace substring of `c9Text`
parses to the object with key "a", yet `generate_json` returns the
`{"raw": ...}` fallback because the regex `\{.*\}` is greedy, matching
from the first brace to the LAST closing brace (an invalid span). -/
theorem c9_counterexample :
    loadsChars "\x7b\"a\": 1\x7d".toList = some (Json.obj [("a", Json.num 1)]) ∧
    generate_json c9Text = Json.obj [("raw", Json.str c9Text)] ∧
    Json.obj [("raw", Json.str c9Text)] ≠ Json.obj [("a", Json.num 1)] := by
  refine ⟨rfl, rfl, ?_⟩
  intro h
  simp only [Json.obj.injEq, List.cons.injEq, Prod.mk.injEq] at h
  exact absurd h.1.1 (by decide)

/-- C9 (amended): `generate_json` first attempts a direct parse of the
whole text; if that fails it parses the span from the first `\x7b` to the
last `\x7d` (the greedy regex match, not the first balanced-brace
substring); and if that also fails it returns `{"raw": original_text}`. -/
theorem c9_generate_json_amended (text : String) :
    (∀ j, loadsChars text.toList = some j → generate_json text = j) ∧
    (loadsChars text.toList = none →
      ∀ span j, braceSpan text.toList = some span → loadsChars span = some j →
        generate_json text = j) ∧
    (loadsChars text.toList = none →
      (∀ span, braceSpan text.toList = some span → loadsChars span = none) →
      generate_json text = Json.obj [("raw", Json.str text)]) := by
  refine ⟨?_, ?_, ?_⟩
  · intro j hj
    unfold generate_json
    rw [hj]
  · intro hn span j hs hj
    unfold generate_json
    rw [hn]
    dsimp only
    rw [hs]
    dsimp only
    rw [hj]
  · intro hn hall
    unfold generate_json
    rw [hn]
    dsimp only
    cases hbs : braceSpan text.toList with
    | none => rfl
    | some span =>
      dsimp only
      rw [hall span hbs]

/-- Witness for the amended C9: a directly parseable text is returned as
parsed. -/
theorem c9_generate_json_amended_witness :
    generate_json "\x7b\"ok\": true\x7d" = Json.obj [("ok", Json.bool true)] :=
  (c9_generate_json_amended "\x7b\"ok\": true\x7d").1 (Json.obj [("ok", Json.bool true)]) rfl

end Wellbeing

namespace Wellbeing

/-! ### Lemmas for C10 (citation backfill idempotence) -/

/-- The citation text is never empty: either a truthy `source_title` or
an `id:tag` string containing a colon. -/
theorem citationText_ne_empty (item : ContentItem) : citationText item ≠ "" := by
  unfold citationText
  split_ifs with h
  · obtain ⟨h1, h2⟩ := h
    cases hst : item.source_title with
    | none =>
      rw [hst] at h1
      simp [truthyOpt] at h1
    | some s =>
      rw [hst] at h1
      simp only [Option.getD_some]
      simpa [truthyOpt] using h1
  · intro hcontra
    apply_fun String.length at hcontra
    simp only [String.length_append] at hcontra
    have hcolon : ":".length = 1 := rfl
    have hnil : "".length = 0 := rfl
    rw [hcolon, hnil] at hcontra
    omega

/-- The citation backfill never changes an item's `content_id`. -/
theorem enrichItem_content_id (candidates : List ContentItem) (item : PlanItem) :
    (enrichItem candidates item).content_id = item.content_id := by
  unfold enrichItem
  cases candidates.reverse.find? (fun c => c.id = item.content_id)
  all_goals dsimp only
  all_goals split_ifs <;> rfl

/-- Backfilling one item is idempotent: the first pass leaves the
evidence fields either already truthy or impossible to fill, so the
second pass changes nothing. -/
theorem enrichItem_idem (candidates : List ContentItem) (item : PlanItem) :
    enrichItem candidates (enrichItem candidates item) = enrichItem candidates item := by
  have hct : ∀ c : ContentItem, truthyOpt (some (citationText c)) = true := by
    intro c
    simp [truthyOpt, citationText_ne_empty c]
  rcases hf : candidates.reverse.find? (fun c => c.id = item.content_id) with _ | c
  · have h1 : enrichItem candidates item = item := by
      unfold enrichItem
      rw [hf]
    rw [h1]
    exact h1
  · have hexp : enrichItem candidates item =
        (let cit := citation_for c
         let item1 :=
           if !truthyOpt item.evidence_citation then
             { item with evidence_citation := some cit.1 }
           else item
         if !truthyOpt item1.evidence_url ∧ truthyOpt cit.2 then
           { item1 with evidence_url := cit.2 }
         else item1) := by
      unfold enrichItem
      rw [hf]
    have hcid : (enrichItem candidates item).content_id = item.content_id :=
      enrichItem_content_id candidates item
    conv_lhs => rw [enrichItem]
    simp only [hcid, hf]
    rw [hexp]
    dsimp only
    by_cases h1 : truthyOpt item.evidence_citation <;>
      by_cases h2 : truthyOpt item.evidence_url <;>
      by_cases h3 : truthyOpt (citation_for c).2 <;>
      simp [h1, h2, h3, hct]

/-- C10: citation backfill is idempotent — re-running
`_enrich_plan_with_citations` on an already-backfilled plan changes no
field of any plan item. -/
theorem c10_backfill_idempotent (plan : Plan) (candidates : List ContentItem) :
    enrichPlanWithCitations (enrichPlanWithCitations plan candidates) candidates =
      enrichPlanWithCitations plan candidates := by
  unfold enrichPlanWithCitations
  simp only [List.map_map]
  have : plan.items.map (enrichItem candidates ∘ enrichItem candidates) =
      plan.items.map (enrichItem candidates) :=
    List.map_congr_left (fun it _ => enrichItem_idem candidates it)
  rw [this]

end Wellbeing

namespace Wellbeing

/-! ### Lemmas for C6 (reflection bundle invariants) -/

/-- Clamping to `[-1,1]` lands in `[-1,1]`. -/
theorem clamp_pm_one_bounds (x : ℚ) :
    -1 ≤ max (-1) (min 1 x) ∧ max (-1) (min 1 x) ≤ 1 :=
  ⟨le_max_left _ _, max_le (by norm_num) (min_le_left _ _)⟩

/-- Defaulting an empty list to `["stress"]` and sorting never yields
the empty list. -/
theorem sort_default_ne_nil (l : List String) :
    (if l = [] then ["stress"] else l).insertionSort (· ≤ ·) ≠ [] := by
  intro h
  apply congrArg List.length at h
  rw [List.length_insertionSort, List.length_nil] at h
  split_ifs at h with hl
  · simp at h
  · exact hl (List.length_eq_zero.mp h)

/-- The theme list produced by `_themes` is never empty: it defaults to
`["stress"]` and sorting preserves length. -/
theorem themesOf_ne_nil (text : String) (context : UserContext) :
    themesOf text context ≠ [] := by
  unfold themesOf
  dsimp only
  exact sort_default_ne_nil _

/-- Projections of `analyzeWith` in terms of the backend output. -/
theorem analyzeWith_fields (scoreFn : String → ℚ × ℚ × ℚ × String)
    (conversation : Conversation) (context : UserContext) :
    (analyzeWith scoreFn conversation context).sentiment_confidence =
      (scoreFn (mergedTextOf conversation context)).2.1 ∧
    (analyzeWith scoreFn conversation context).sentiment_calibrated =
      (scoreFn (mergedTextOf conversation context)).2.2.1 ∧
    (analyzeWith scoreFn conversation context).top_themes =
      themesOf (fullTextOf conversation) context ∧
    (analyzeWith scoreFn conversation context).energy_level =
      energyFromText (mergedTextOf conversation context) ∧
    (analyzeWith scoreFn conversation context).reflection_score =
      reflectionScoreOf (scoreFn (mergedTextOf conversation context)).2.2.1
        (themesOf (fullTextOf conversation) context)
        (energyFromText (mergedTextOf conversation context)) := by
  rcases hsp : scoreFn (mergedTextOf conversation context) with ⟨raw, conf, cal, name⟩
  refine ⟨?_, ?_, ?_, ?_, ?_⟩ <;> simp [analyzeWith, hsp]

/-- `_reflection_score` written with the claim's energy adjustment (the
dictionary lookup with default 0 coincides with the three-way split). -/
theorem reflectionScoreOf_eq_claim (cal : ℚ) (themes : List String) (energy : String) :
    reflectionScoreOf cal themes energy =
      max 0 (min 1 (1 / 2 + (4 / 10) * cal
        + min (2 / 10) ((5 / 100) * (themes.length : ℚ))
        + (if energy = "low" then -(1 / 10)
           else if energy = "high" then 8 / 100 else 0))) := by
  unfold reflectionScoreOf
  dsimp only
  by_cases h1 : energy = "low" <;>
    by_cases h2 : energy = "medium" <;>
    by_cases h3 : energy = "high" <;>
    simp_all

/-- C6: for every bundle produced by `analyze` under any of the three
sentiment backends, the confidence is in `[0,1]`, the calibrated
sentiment is in `[-1,1]`, the reflection score is the claimed clamp
formula over the bundle's own fields, and the theme list is non-empty. -/
theorem c6_bundle_invariants (scoreFn : String → ℚ × ℚ × ℚ × String)
    (conversation : Conversation) (context : UserContext)
    (hbackend : scoreFn = heuristicScore ∨
      (∃ compound : String → ℚ,
        (∀ t, -1 ≤ compound t ∧ compound t ≤ 1) ∧
        scoreFn = fun t => vaderPost (compound t)) ∨
      (∃ positive negative : String → ℚ,
        (∀ t, 0 ≤ positive t ∧ 0 ≤ negative t ∧ positive t + negative t = 1) ∧
        scoreFn = fun t => distilbertPost (positive t) (negative t))) :
    (0 ≤ (analyzeWith scoreFn conversation context).sentiment_confidence ∧
      (analyzeWith scoreFn conversation context).sentiment_confidence ≤ 1) ∧
    (-1 ≤ (analyzeWith scoreFn conversation context).sentiment_calibrated ∧
      (analyzeWith scoreFn conversation context).sentiment_calibrated ≤ 1) ∧
    (analyzeWith scoreFn conversation context).reflection_score =
      max 0 (min 1 (1 / 2
        + (4 / 10) * (analyzeWith scoreFn conversation context).sentiment_calibrated
        + min (2 / 10) ((5 / 100) *
            (((analyzeWith scoreFn conversation context).top_themes.length : ℚ)))
        + (if (analyzeWith scoreFn conversation context).energy_level = "low" then -(1 / 10)
           else if (analyzeWith scoreFn conversation context).energy_level = "high" then 8 / 100
           else 0))) ∧
    (analyzeWith scoreFn conversation context).top_themes ≠ [] := by
  obtain ⟨hconf, hcal, hthemes, henergy, hrefl⟩ :=
    analyzeWith_fields scoreFn conversation context
  have hbounds : 0 ≤ (scoreFn (mergedTextOf conversation context)).2.1 ∧
      (scoreFn (mergedTextOf conversation context)).2.1 ≤ 1 ∧
      -1 ≤ (scoreFn (mergedTextOf conversation context)).2.2.1 ∧
      (scoreFn (mergedTextOf conversation context)).2.2.1 ≤ 1 := by
    rcases hbackend with rfl | ⟨compound, hcb, rfl⟩ | ⟨positive, negative, hpn, rfl⟩
    · unfold heuristicScore
      dsimp only
      have hs := clamp_pm_one_bounds
        ((2 / 5) * ((["good", "great", "calm", "happy", "okay", "content"].filter
            (fun w => strContains (lowerStr (mergedTextOf conversation context)) w)).length : ℚ)
          - (2 / 5) * ((["bad", "tired", "stressed", "sad", "anxious", "overwhelmed"].filter
            (fun w => strContains (lowerStr (mergedTextOf conversation context)) w)).length : ℚ))
      refine ⟨by norm_num, by norm_num, by nlinarith [hs.1, hs.2], by nlinarith [hs.1, hs.2]⟩
    · unfold vaderPost
      dsimp only
      have habs := abs_nonneg (compound (mergedTextOf conversation context))
      have hclamp := clamp_pm_one_bounds (compound (mergedTextOf conversation context) * (9 / 10))
      refine ⟨?_, ?_, hclamp.1, hclamp.2⟩
      · have : (0 : ℚ) ≤ 2 / 10 := by norm_num
        exact this.trans (le_max_left _ _)
      · refine max_le (by norm_num) (by nlinarith)
    · unfold distilbertPost
      dsimp only
      obtain ⟨hp, hn, hs⟩ := hpn (mergedTextOf conversation context)
      have hclamp := clamp_pm_one_bounds
        ((positive (mergedTextOf conversation context) - 55 / 100) / (45 / 100))
      refine ⟨hp.trans (le_max_left _ _), max_le (by linarith) (by linarith),
        hclamp.1, hclamp.2⟩
  refine ⟨?_, ?_, ?_, ?_⟩
  · rw [hconf]
    exact ⟨hbounds.1, hbounds.2.1⟩
  · rw [hcal]
    exact ⟨hbounds.2.2.1, hbounds.2.2.2⟩
  · rw [hrefl, hcal, hthemes, henergy]
    exact reflectionScoreOf_eq_claim _ _ _
  · rw [hthemes]
    exact themesOf_ne_nil _ _

/-- Witness for C6: the heuristic backend on a small concrete
conversation. -/
theorem c6_bundle_invariants_witness :
    (0 ≤ (analyzeWith heuristicScore ⟨[⟨Role.user, "ok"⟩, ⟨Role.user, "fine"⟩]⟩
        { user_id := "u" }).sentiment_confidence ∧
      (analyzeWith heuristicScore ⟨[⟨Role.user, "ok"⟩, ⟨Role.user, "fine"⟩]⟩
        { user_id := "u" }).sentiment_confidence ≤ 1) ∧
    (-1 ≤ (analyzeWith heuristicScore ⟨[⟨Role.user, "ok"⟩, ⟨Role.user, "fine"⟩]⟩
        { user_id := "u" }).sentiment_calibrated ∧
      (analyzeWith heuristicScore ⟨[⟨Role.user, "ok"⟩, ⟨Role.user, "fine"⟩]⟩
        { user_id := "u" }).sentiment_calibrated ≤ 1) ∧
    (analyzeWith heuristicScore ⟨[⟨Role.user, "ok"⟩, ⟨Role.user, "fine"⟩]⟩
        { user_id := "u" }).reflection_score =
      max 0 (min 1 (1 / 2
        + (4 / 10) * (analyzeWith heuristicScore ⟨[⟨Role.user, "ok"⟩, ⟨Role.user, "fine"⟩]⟩
            { user_id := "u" }).sentiment_calibrated
        + min (2 / 10) ((5 / 100) *
            (((analyzeWith heuristicScore ⟨[⟨Role.user, "ok"⟩, ⟨Role.user, "fine"⟩]⟩
              { user_id := "u" }).top_themes.length : ℚ)))
        + (if (analyzeWith heuristicScore ⟨[⟨Role.user, "ok"⟩, ⟨Role.user, "fine"⟩]⟩
              { user_id := "u" }).energy_level = "low" then -(1 / 10)
           else if (analyzeWith heuristicScore ⟨[⟨Role.user, "ok"⟩, ⟨Role.user, "fine"⟩]⟩
              { user_id := "u" }).energy_level = "high" then 8 / 100
           else 0))) ∧
    (analyzeWith heuristicScore ⟨[⟨Role.user, "ok"⟩, ⟨Role.user, "fine"⟩]⟩
        { user_id := "u" }).top_themes ≠ [] :=
  c6_bundle_invariants heuristicScore ⟨[⟨Role.user, "ok"⟩, ⟨Role.user, "fine"⟩]⟩
    { user_id := "u" } (Or.inl rfl)

end Wellbeing

namespace Wellbeing

/-! ### Lemmas for C7 (retrieval ranking) -/

/-- The boosted score as the claim states it: dot-product similarity
plus 0.12 times the size of the case-insensitive intersection of the
query themes with the item's tags. -/
def claimScore (queryVec : List ℚ) (themes : List String) (e : StoreEntry) : ℚ :=
  dotQ e.2 queryVec +
    (12 / 100) * ((((themes.map lowerStr).toFinset ∩ (e.1.tags.map lowerStr).toFinset).card : ℚ))

/-- `search` normalizes the themes to a lowercased set before querying;
the boost it computes is exactly the claimed one. -/
theorem boostedScore_normalized (queryVec : List ℚ) (themes : List String) (e : StoreEntry) :
    boostedScore queryVec ((themes.map lowerStr).dedup) e = claimScore queryVec themes e := by
  have hd : (themes.map lowerStr).dedup.toFinset = (themes.map lowerStr).toFinset := by
    ext a
    simp [List.mem_toFinset, List.mem_dedup]
  simp [boostedScore, claimScore, themeBoostCount, hd]

/-- Two positions of a list, in order, form a sublist. -/
theorem pair_get_sublist :
    ∀ (l : List α) (i j : ℕ) (hi : i < l.length) (hj : j < l.length), i < j →
      List.Sublist [l.get ⟨i, hi⟩, l.get ⟨j, hj⟩] l := by
  intro l
  induction l with
  | nil =>
    intro i j hi
    simp at hi
  | cons x xs ih =>
    intro i j hi hj hij
    cases i with
    | zero =>
      cases j with
      | zero => omega
      | succ j2 =>
        refine List.Sublist.cons₂ x ?_
        exact List.singleton_sublist.mpr (xs.get_mem _ _)
    | succ i2 =>
      cases j with
      | zero => omega
      | succ j2 =>
        exact List.Sublist.cons x (ih i2 j2 _ _ (by omega))

/-- In a duplicate-free list, a two-element sublist survives truncation
when both elements survive it. -/
theorem pair_sublist_take :
    ∀ (L : List α) (k : ℕ) (a b : α), L.Nodup → List.Sublist [a, b] L →
      a ∈ L.take k → b ∈ L.take k → List.Sublist [a, b] (L.take k) := by
  intro L
  induction L with
  | nil =>
    intro k a b _ _ ha _
    simp at ha
  | cons x xs ih =>
    intro k a b hnd hab ha hb
    rw [List.nodup_cons] at hnd
    obtain ⟨hx, hnd2⟩ := hnd
    cases k with
    | zero => simp at ha
    | succ k2 =>
      rw [List.take_succ_cons] at ha hb ⊢
      cases hab with
      | cons _ htail =>
        have haxs : a ∈ xs := htail.subset (by simp)
        have hbxs : b ∈ xs := htail.subset (by simp)
        have ha2 : a ∈ xs.take k2 := by
          rcases List.mem_cons.mp ha with rfl | h
          · exact absurd haxs hx
          · exact h
        have hb2 : b ∈ xs.take k2 := by
          rcases List.mem_cons.mp hb with rfl | h
          · exact absurd hbxs hx
          · exact h
        exact List.Sublist.cons _ (ih k2 a b hnd2 htail ha2 hb2)
      | cons₂ _ htail =>
        have hbxs : b ∈ xs := htail.subset (by simp)
        have hb2 : b ∈ xs.take k2 := by
          rcases List.mem_cons.mp hb with rfl | h
          · exact absurd hbxs hx
          · exact h
        exact List.Sublist.cons₂ _ (List.singleton_sublist.mpr hb2)

end Wellbeing

namespace Wellbeing

/-- C7: on a non-empty corpus with distinct content ids, `search` scores
every indexed item as dot product plus `0.12` times the case-insensitive
theme/tag intersection, returns `topk` items in descending order of that
boosted score (each annotated with it), leaves out only items scoring no
higher than everything returned, and breaks ties between equal boosted
scores by original corpus order. -/
theorem c7_search_ranking (entries : List StoreEntry) (queryVec : List ℚ)
    (themes : List String) (topk : ℕ) (hne : entries ≠ [])
    (hids : (entries.map (fun e => e.1.id)).Nodup) :
    (searchRepo entries queryVec themes topk).length = min topk entries.length ∧
    (searchRepo entries queryVec themes topk).Sorted (fun a b => b.score ≤ a.score) ∧
    (∀ x ∈ searchRepo entries queryVec themes topk,
      ∃ e ∈ entries, x = { e.1 with score := claimScore queryVec themes e }) ∧
    (∀ e ∈ entries,
      ({ e.1 with score := claimScore queryVec themes e } ∈
          searchRepo entries queryVec themes topk) ∨
      ((searchRepo entries queryVec themes topk).length = topk ∧
        ∀ x ∈ searchRepo entries queryVec themes topk,
          claimScore queryVec themes e ≤ x.score)) ∧
    (∀ i j (hi : i < entries.length) (hj : j < entries.length), i < j →
      claimScore queryVec themes (entries.get ⟨i, hi⟩) =
        claimScore queryVec themes (entries.get ⟨j, hj⟩) →
      ({ (entries.get ⟨i, hi⟩).1 with
          score := claimScore queryVec themes (entries.get ⟨i, hi⟩) } ∈
        searchRepo entries queryVec themes topk) →
      ({ (entries.get ⟨j, hj⟩).1 with
          score := claimScore queryVec themes (entries.get ⟨j, hj⟩) } ∈
        searchRepo entries queryVec themes topk) →
      List.Sublist
        [{ (entries.get ⟨i, hi⟩).1 with
            score := claimScore queryVec themes (entries.get ⟨i, hi⟩) },
         { (entries.get ⟨j, hj⟩).1 with
            score := claimScore queryVec themes (entries.get ⟨j, hj⟩) }]
        (searchRepo entries queryVec themes topk)) := by
  have hsearch : searchRepo entries queryVec themes topk =
      (((entries.map fun e => (claimScore queryVec themes e, e)).insertionSort
          scoreDesc).take topk).map
        (fun hit => { hit.2.1 with score := hit.1 }) := by
    obtain ⟨e0, es, rfl⟩ := List.exists_cons_of_ne_nil hne
    have hmap : (e0 :: es).map
        (fun e => (boostedScore queryVec ((themes.map lowerStr).dedup) e, e)) =
        (e0 :: es).map (fun e => (claimScore queryVec themes e, e)) :=
      List.map_congr_left (fun e _ => by rw [boostedScore_normalized])
    unfold searchRepo storeQuery
    dsimp only
    rw [hmap]
  rw [hsearch]
  set A := entries.map fun e => (claimScore queryVec themes e, e) with hA
  set S := A.insertionSort scoreDesc with hS
  have hperm : S.Perm A := List.perm_insertionSort scoreDesc A
  have hsorted : S.Sorted scoreDesc := List.sorted_insertionSort scoreDesc A
  have hlenS : S.length = entries.length := by
    rw [hS, List.length_insertionSort, hA, List.length_map]
  have hndA : A.Nodup := by
    have hent : ∀ x ∈ entries, ∀ y ∈ entries, x.1.id = y.1.id → x = y :=
      fun x hx y hy hxy => List.inj_on_of_nodup_map hids hx hy hxy
    rw [hA]
    refine List.Nodup.map_on ?_ (hids.of_map)
    intro x hx y hy hxy
    exact hent x hx y hy (congrArg (fun p => p.2.1.id) hxy)
  have hndS : S.Nodup := (hperm.nodup_iff).mpr hndA
  have hback : ∀ e ∈ entries,
      ({ e.1 with score := claimScore queryVec themes e } ∈
        (S.take topk).map (fun hit => { hit.2.1 with score := hit.1 })) →
      ((claimScore queryVec themes e, e) ∈ S.take topk) := by
    intro e he hmem
    obtain ⟨q, hq, hqe⟩ := List.mem_map.mp hmem
    have hqA : q ∈ A := (hperm.mem_iff).mp (List.mem_of_mem_take hq)
    rw [hA] at hqA
    obtain ⟨e2, he2, rfl⟩ := List.mem_map.mp hqA
    have hid : e2.1.id = e.1.id := by
      have := congrArg ContentItem.id hqe
      simpa using this
    have he2e : e2 = e := List.inj_on_of_nodup_map hids he2 he hid
    rw [he2e] at hq
    exact hq
  refine ⟨?_, ?_, ?_, ?_, ?_⟩
  · rw [List.length_map, List.length_take, hlenS]
  · have h2 : (S.take topk).Sorted scoreDesc :=
      hsorted.sublist (List.take_sublist topk S)
    exact List.pairwise_map.mpr (h2.imp (fun h => h))
  · intro x hx
    obtain ⟨p, hp, rfl⟩ := List.mem_map.mp hx
    have hpA : p ∈ A := (hperm.mem_iff).mp (List.mem_of_mem_take hp)
    rw [hA] at hpA
    obtain ⟨e, he, rfl⟩ := List.mem_map.mp hpA
    exact ⟨e, he, rfl⟩
  · intro e he
    have hpA : (claimScore queryVec themes e, e) ∈ A := by
      rw [hA]
      exact List.mem_map_of_mem _ he
    have hpS : (claimScore queryVec themes e, e) ∈ S := (hperm.mem_iff).mpr hpA
    by_cases hmem : (claimScore queryVec themes e, e) ∈ S.take topk
    · exact Or.inl (List.mem_map_of_mem _ hmem)
    · right
      have hdrop : (claimScore queryVec themes e, e) ∈ S.drop topk := by
        rcases List.mem_append.mp ((List.take_append_drop topk S) ▸ hpS) with h | h
        · exact absurd h hmem
        · exact h
      have hlt : topk < S.length := by
        by_contra hcon
        rw [List.drop_eq_nil_of_le (by omega)] at hdrop
        simp at hdrop
      constructor
      · rw [List.length_map, List.length_take, hlenS]
        omega
      · intro x hx
        obtain ⟨q, hq, rfl⟩ := List.mem_map.mp hx
        exact hsorted.rel_of_mem_take_of_mem_drop hq hdrop
  · intro i j hi hj hij heq hmi hmj
    have hiA : i < A.length := by rw [hA, List.length_map]; exact hi
    have hjA : j < A.length := by rw [hA, List.length_map]; exact hj
    have hpairA : List.Sublist
        [(claimScore queryVec themes (entries.get ⟨i, hi⟩), entries.get ⟨i, hi⟩),
         (claimScore queryVec themes (entries.get ⟨j, hj⟩), entries.get ⟨j, hj⟩)] A := by
      have hpairE := pair_get_sublist entries i j hi hj hij
      rw [hA]
      exact hpairE.map (fun e => (claimScore queryVec themes e, e))
    have hrel : scoreDesc
        (claimScore queryVec themes (entries.get ⟨i, hi⟩), entries.get ⟨i, hi⟩)
        (claimScore queryVec themes (entries.get ⟨j, hj⟩), entries.get ⟨j, hj⟩) := by
      show claimScore queryVec themes (entries.get ⟨j, hj⟩) ≤
        claimScore queryVec themes (entries.get ⟨i, hi⟩)
      rw [heq]
    have hpairS : List.Sublist
        [(claimScore queryVec themes (entries.get ⟨i, hi⟩), entries.get ⟨i, hi⟩),
         (claimScore queryVec themes (entries.get ⟨j, hj⟩), entries.get ⟨j, hj⟩)] S :=
      List.pair_sublist_insertionSort hrel hpairA
    have htki := hback _ (entries.get_mem _ _) hmi
    have htkj := hback _ (entries.get_mem _ _) hmj
    have htake := pair_sublist_take S topk _ _ hndS hpairS htki htkj
    exact htake.map (fun hit => { hit.2.1 with score := hit.1 })

end Wellbeing

namespace Wellbeing

/-- Witness for C7 on a concrete two-item corpus with distinct ids. -/
theorem c7_search_ranking_witness :
    (searchRepo [(itemBreath, [(1 : ℚ), 0]), (itemStretch, [(0 : ℚ), 1])]
        [1, 0] ["Stress"] 2).length =
      min 2 ([(itemBreath, [(1 : ℚ), 0]), (itemStretch, [(0 : ℚ), 1])] :
        List StoreEntry).length :=
  (c7_search_ranking [(itemBreath, [(1 : ℚ), 0]), (itemStretch, [(0 : ℚ), 1])]
    [1, 0] ["Stress"] 2 (by simp) (by decide)).1

end Wellbeing
